import Mathlib

/-!
Verification of the covariance-transport engine (Acts CovarianceEngine)
against its natural-language specification.

The engine in `CovarianceEngine.cpp` is embedded shallowly: vectors and
matrices become `Matrix (Fin n) (Fin m) ℚ` (column vectors are `n × 1`
matrices, as in Eigen); fallible operations return `Option`; reference
mutation becomes explicit state passing; C++ exceptions (thrown by
`Result::value()` on an error, or `std::optional::value()` on an empty
optional) become explicit exceptional outcomes. Surface capabilities that
the engine consumes (reference frame, Jacobian evaluation, fallible
global-to-local projection, parameter conversions) are fields of a
`Surface` record, mirroring the capability set of the specification.
The iterative SVD square root and the floating `sqrt` used by the
sigma-point corrector are abstracted as function parameters; everything
downstream of them is embedded exactly.

The numerically interesting pure functions (`freeToCurvilinearJacobian`,
`Surface::freeToPathDerivative`, and the spec-modelled bound↔free
parameter transforms) are embedded separately over `ℝ`, where `Real.sqrt`
and the trigonometric maps are available; possible IEEE non-finite values
(`1/0`, `0 * inf`) are tracked with `Option ℝ` via checked division.
-/

namespace CovEngine

/-- Bound parameter vector (6 components), as a 6×1 column matrix. -/
abbrev BoundVec := Matrix (Fin 6) (Fin 1) ℚ

/-- Free parameter vector (8 components), as an 8×1 column matrix. -/
abbrev FreeVec := Matrix (Fin 8) (Fin 1) ℚ

/-- Symmetric 6×6 bound covariance matrix type. -/
abbrev BoundSym := Matrix (Fin 6) (Fin 6) ℚ

/-- Symmetric 8×8 free covariance matrix type. -/
abbrev FreeSym := Matrix (Fin 8) (Fin 8) ℚ

/-- 6×6 bound-to-bound Jacobian. -/
abbrev BoundM := Matrix (Fin 6) (Fin 6) ℚ

/-- 8×8 free transport Jacobian. -/
abbrev FreeM := Matrix (Fin 8) (Fin 8) ℚ

/-- 8×6 bound→free Jacobian. -/
abbrev BoundToFreeM := Matrix (Fin 8) (Fin 6) ℚ

/-- 6×8 free→bound Jacobian. -/
abbrev FreeToBoundM := Matrix (Fin 6) (Fin 8) ℚ

/-- 1×8 path-length derivative row vector. -/
abbrev FreeToPathM := Matrix (Fin 1) (Fin 8) ℚ

/-- The surface capability set consumed by the covariance engine, as in the
specification's external-interface section.  `transformFreeToBound` and
`transformBoundToFree` stand for `detail::transformFreeToBoundParameters` /
`detail::transformBoundToFreeParameters`.
Modelled from the spec: those two conversions and `Surface::globalToLocal`
are not under src/ (only their callers are); per the spec, free→bound and
the global-to-local projection are fallible (explicit failure result),
bound→free is a total pure function. -/
structure Surface where
  freeToPathDerivative : FreeVec → FreeToPathM
  freeToBoundJacobian : FreeVec → FreeToBoundM
  boundToFreeJacobian : BoundVec → BoundToFreeM
  globalToLocal : FreeVec → Option (Matrix (Fin 2) (Fin 1) ℚ)
  transformFreeToBound : FreeVec → Option BoundVec
  transformBoundToFree : BoundVec → FreeVec

/-- Embedding of `boundToBoundJacobian` (CovarianceEngine.cpp): returns
the pair (fullTransportJacobian, startBoundToFinalFreeJacobian). -/
def boundToBoundJacobian (s : Surface) (freeParameters : FreeVec)
    (boundToFreeJacobian : BoundToFreeM) (freeTransportJacobian : FreeM)
    (freeDerivatives : FreeVec) : BoundM × BoundToFreeM :=
  let freeToPath := s.freeToPathDerivative freeParameters
  let freeToBoundJacobian := s.freeToBoundJacobian freeParameters
  let startBoundToFinalFreeJacobian :=
    (1 + freeDerivatives * freeToPath) * freeTransportJacobian *
      boundToFreeJacobian
  (freeToBoundJacobian * startBoundToFinalFreeJacobian,
    startBoundToFinalFreeJacobian)

/-- Column `i` of a 6×6 matrix, as a 6×1 column vector (Eigen's `.col(i)`). -/
def covSqrtCol (m : BoundSym) (i : Fin 6) : BoundVec :=
  Matrix.of fun r _ => m r i

/-- Embedding of the sigma-point construction of
`CorrectedBoundToFreeTransformer::operator()` (lines 69–80): the baseline
parameter with weight `(kappa - eBoundSize) / kappa` followed, for each of
the 6 axes, by the two shifted parameters with weight `0.5 / kappa` each.
`kappaSqrt` abstracts the floating `std::sqrt(kappa)`. -/
def sampledBoundParams (kappa kappaSqrt : ℚ) (covSqrt : BoundSym)
    (boundParams : BoundVec) : List (BoundVec × ℚ) :=
  (boundParams, (kappa - 6) / kappa) ::
    (List.finRange 6).flatMap fun i =>
      [(boundParams + kappaSqrt • covSqrtCol covSqrt i, 0.5 / kappa),
       (boundParams - kappaSqrt • covSqrtCol covSqrt i, 0.5 / kappa)]

/-- Embedding of `CorrectedBoundToFreeTransformer::operator()`.
`covSqrtOf` abstracts the SVD-based square root of the covariance
(lines 34–63); the sampling, transformation and recombination
(lines 69–117) are embedded exactly.  The bound→free transform of each
sample is the surface's total `transformBoundToFree`, so every sample is
pushed onto the transformed list. -/
def correctedBoundToFree (kappa kappaSqrt : ℚ)
    (covSqrtOf : BoundSym → BoundSym) (s : Surface)
    (boundParams : BoundVec) (boundCovariance : BoundSym) :
    Option (FreeVec × FreeSym) :=
  let covSqrt := covSqrtOf boundCovariance
  let sampled := sampledBoundParams kappa kappaSqrt covSqrt boundParams
  let transformed := sampled.map fun pw => s.transformBoundToFree pw.1
  let fpMean : FreeVec :=
    ((sampled.zip transformed).map fun x => x.1.2 • x.2).sum
  if transformed.isEmpty then none
  else
    let fv : FreeSym :=
      ((sampled.zip transformed).map fun x =>
        x.1.2 • ((x.2 - fpMean) * Matrix.transpose (x.2 - fpMean))).sum
    some (fpMean, fv)

/-- Result of `reinitializeJacobians` (surface version): the three state
members after the call, whether the returned `Result` is a success, and
whether the FATAL message about the global-to-local inconsistency was
logged. -/
structure ReinitResult where
  freeTransportJacobian : FreeM
  freeToPathDerivatives : FreeVec
  boundToFreeJacobian : BoundToFreeM
  ok : Bool
  fatalLogged : Bool
  deriving DecidableEq

/-- Embedding of the surface version of `reinitializeJacobians`
(CovarianceEngine.cpp lines 180–213): the transport Jacobian and path
derivatives are reset first; a failed `globalToLocal` only logs a FATAL
message and execution continues; a failed free→bound conversion returns
the error with the bound→free Jacobian left untouched (stale). -/
def reinitializeJacobians (s : Surface) (boundToFreeJacobian : BoundToFreeM)
    (freeParameters : FreeVec) : ReinitResult :=
  let freeTransportJacobian : FreeM := 1
  let freeToPathDerivatives : FreeVec := 0
  let fatalLogged := (s.globalToLocal freeParameters).isNone
  match s.transformFreeToBound freeParameters with
  | none =>
      { freeTransportJacobian := freeTransportJacobian
        freeToPathDerivatives := freeToPathDerivatives
        boundToFreeJacobian := boundToFreeJacobian
        ok := false
        fatalLogged := fatalLogged }
  | some boundParameters =>
      { freeTransportJacobian := freeTransportJacobian
        freeToPathDerivatives := freeToPathDerivatives
        boundToFreeJacobian := s.boundToFreeJacobian boundParameters
        ok := true
        fatalLogged := fatalLogged }

/-- The step state mutated by reference throughout the engine. -/
structure TState where
  boundCovariance : BoundSym
  freeCovariance : FreeSym
  fullTransportJacobian : BoundM
  freeTransportJacobian : FreeM
  freeToPathDerivatives : FreeVec
  boundToFreeJacobian : BoundToFreeM
  deriving DecidableEq

/-- A C++ exception escaping `transportCovarianceToBound`:
`Acts::Result::value()` called on an error result. -/
inductive TcbExn where
  | valueAccess
  deriving DecidableEq

/-- Embedding of `transportCovarianceToBound` (CovarianceEngine.cpp lines
360–422).  When the free→bound conversion fails, the code only prints a
message; the subsequent `boundParameters.value()` at the corrector
invocation then raises, so the function aborts with only the full
transport Jacobian updated.  On the success path: the corrector refines
the free covariance (replacing the incoming one when a correction is
returned), the result is conjugated by the path-corrected transport
Jacobian, projected by the free→bound Jacobian, and the step state is
re-initialized; the `Result` of `reinitializeJacobians` is discarded. -/
def transportCovarianceToBound (kappa kappaSqrt : ℚ)
    (covSqrtOf : BoundSym → BoundSym) (s : Surface) (st : TState)
    (freeParameters : FreeVec) : TState × Option TcbExn :=
  let jac := boundToBoundJacobian s freeParameters st.boundToFreeJacobian
    st.freeTransportJacobian st.freeToPathDerivatives
  let fullTransportJacobian := jac.1
  match s.transformFreeToBound freeParameters with
  | none =>
      ({ st with fullTransportJacobian := fullTransportJacobian },
        some TcbExn.valueAccess)
  | some boundParameters =>
      let correctedRes := correctedBoundToFree kappa kappaSqrt covSqrtOf s
        boundParameters st.boundCovariance
      let freeCovariance :=
        match correctedRes with
        | some correctedValue => correctedValue.2
        | none => st.freeCovariance
      let freeToPath := s.freeToPathDerivative freeParameters
      let startFreeToFinalFreeJacobian :=
        (1 + st.freeToPathDerivatives * freeToPath) *
          st.freeTransportJacobian
      let freeCovariance' := startFreeToFinalFreeJacobian * freeCovariance *
        Matrix.transpose startFreeToFinalFreeJacobian
      let freeToBoundJacobian := s.freeToBoundJacobian freeParameters
      let boundCovariance := freeToBoundJacobian * freeCovariance' *
        Matrix.transpose freeToBoundJacobian
      let r := reinitializeJacobians s st.boundToFreeJacobian freeParameters
      ({ boundCovariance := boundCovariance
         freeCovariance := freeCovariance'
         fullTransportJacobian := fullTransportJacobian
         freeTransportJacobian := r.freeTransportJacobian
         freeToPathDerivatives := r.freeToPathDerivatives
         boundToFreeJacobian := r.boundToFreeJacobian }, none)

/-- Modelled from the spec: the fixed curvilinear branch tolerance
`s_curvilinearProjTolerance` (its defining header is not under src/); the
spec only calls it a fixed tolerance `τ`, the upstream value is used. -/
def curvilinearProjTolerance : ℚ := 0.999995

/-- Embedding of `freeToCurvilinearJacobian` (CovarianceEngine.cpp lines
33–75) over `ℚ`, with the floating square root abstracted as `sqrtQ`
(division by zero is total in `ℚ`; the `ℝ`-level embedding below tracks
the IEEE non-finite values instead). -/
def freeToCurvilinearJacobianQ (sqrtQ : ℚ → ℚ)
    (direction : Matrix (Fin 3) (Fin 1) ℚ) : FreeToBoundM :=
  let x := direction 0 0
  let y := direction 1 0
  let z := direction 2 0
  let cosTheta := z
  let sinTheta := sqrtQ (x * x + y * y)
  let invSinTheta := 1 / sinTheta
  let cosPhi := x * invSinTheta
  let sinPhi := y * invSinTheta
  let c := sqrtQ (y * y + z * z)
  let invC := 1 / c
  Matrix.of fun i j =>
    if i = 5 ∧ j = 3 then 1
    else if i = 2 ∧ j = 4 then -sinPhi * invSinTheta
    else if i = 2 ∧ j = 5 then cosPhi * invSinTheta
    else if i = 3 ∧ j = 4 then cosPhi * cosTheta
    else if i = 3 ∧ j = 5 then sinPhi * cosTheta
    else if i = 3 ∧ j = 6 then -sinTheta
    else if i = 4 ∧ j = 7 then 1
    else if |cosTheta| < curvilinearProjTolerance then
      if i = 0 ∧ j = 0 then -sinPhi
      else if i = 0 ∧ j = 1 then cosPhi
      else if i = 1 ∧ j = 0 then -cosPhi * cosTheta
      else if i = 1 ∧ j = 1 then -sinPhi * cosTheta
      else if i = 1 ∧ j = 2 then sinTheta
      else 0
    else
      if i = 0 ∧ j = 1 then -z * invC
      else if i = 0 ∧ j = 2 then y * invC
      else if i = 1 ∧ j = 0 then c
      else if i = 1 ∧ j = 1 then -x * y * invC
      else if i = 1 ∧ j = 2 then -x * z * invC
      else 0

/-- Embedding of `boundToCurvilinearJacobian` (CovarianceEngine.cpp lines
147–166): the full local-to-curvilinear Jacobian. -/
def boundToCurvilinearJacobian (sqrtQ : ℚ → ℚ)
    (direction : Matrix (Fin 3) (Fin 1) ℚ)
    (boundToFreeJacobian : BoundToFreeM) (freeTransportJacobian : FreeM)
    (freeDerivatives : FreeVec) : BoundM :=
  let freeToPath : FreeToPathM := Matrix.of fun _ j =>
    if h : (j : ℕ) < 3 then -1 * direction ⟨(j : ℕ), h⟩ 0 else 0
  let freeToBoundJacobian := freeToCurvilinearJacobianQ sqrtQ direction
  freeToBoundJacobian * (1 + freeDerivatives * freeToPath) *
    freeTransportJacobian * boundToFreeJacobian

/-- Embedding of the direction version of `reinitializeJacobians`
(CovarianceEngine.cpp lines 225–257): resets the transport Jacobian to
identity, the path derivatives to zero, and rebuilds the bound→free
Jacobian from the curvilinear analytic formula. -/
def reinitializeJacobiansDirection (sqrtQ : ℚ → ℚ)
    (direction : Matrix (Fin 3) (Fin 1) ℚ) :
    FreeM × FreeVec × BoundToFreeM :=
  let x := direction 0 0
  let y := direction 1 0
  let z := direction 2 0
  let cosTheta := z
  let sinTheta := sqrtQ (x * x + y * y)
  let invSinTheta := 1 / sinTheta
  let cosPhi := x * invSinTheta
  let sinPhi := y * invSinTheta
  let boundToFreeJacobian : BoundToFreeM := Matrix.of fun i j =>
    if i = 0 ∧ j = 0 then -sinPhi
    else if i = 0 ∧ j = 1 then -cosPhi * cosTheta
    else if i = 1 ∧ j = 0 then cosPhi
    else if i = 1 ∧ j = 1 then -sinPhi * cosTheta
    else if i = 2 ∧ j = 1 then sinTheta
    else if i = 3 ∧ j = 5 then 1
    else if i = 4 ∧ j = 2 then -sinTheta * sinPhi
    else if i = 4 ∧ j = 3 then cosTheta * cosPhi
    else if i = 5 ∧ j = 2 then sinTheta * cosPhi
    else if i = 5 ∧ j = 3 then cosTheta * sinPhi
    else if i = 6 ∧ j = 3 then -sinTheta
    else if i = 7 ∧ j = 4 then 1
    else 0
  (1, 0, boundToFreeJacobian)

/-- Embedding of `transportCovarianceToCurvilinear` (CovarianceEngine.cpp
lines 424–448). -/
def transportCovarianceToCurvilinear (sqrtQ : ℚ → ℚ) (st : TState)
    (direction : Matrix (Fin 3) (Fin 1) ℚ) : TState :=
  let fullTransportJacobian := boundToCurvilinearJacobian sqrtQ direction
    st.boundToFreeJacobian st.freeTransportJacobian st.freeToPathDerivatives
  let boundCovariance := fullTransportJacobian * st.boundCovariance *
    Matrix.transpose fullTransportJacobian
  let r := reinitializeJacobiansDirection sqrtQ direction
  { st with
    boundCovariance := boundCovariance
    fullTransportJacobian := fullTransportJacobian
    freeTransportJacobian := r.1
    freeToPathDerivatives := r.2.1
    boundToFreeJacobian := r.2.2 }

/-- Bound track parameters: surface-attached bound vector plus an optional
covariance (absence is `none`). -/
structure BoundTrackParams where
  boundVector : BoundVec
  covariance : Option BoundSym
  deriving DecidableEq

/-- Outcome of `boundState`: a normal return, the error return from a
failed free→bound conversion, or one of the two possible C++ exceptions
(the `Result::value()` raise inside `transportCovarianceToBound`, and the
`std::optional::value()` raise on an absent bound covariance at the
diagnostic print). -/
inductive BsOutcome where
  | ok (params : BoundTrackParams) (jacobian : BoundM)
      (accumulatedPath : ℚ) (correctedBp : BoundVec)
      (correctedBv : BoundSym)
  | err
  | exnValueAccess
  | exnBadOptionalAccess
  deriving DecidableEq

/-- Embedding of `boundState` (CovarianceEngine.cpp lines 262–320).
`freeToBoundCorrector` abstracts `detail::CorrectedFreeToBoundTransformer`.
Modelled from the spec: that transformer's header is not under src/; per
the spec it is the direction-symmetric sigma-point corrector, returning an
optional corrected bound mean/covariance from the free mean/covariance at
the target surface.  The covariance is attached only when the (possibly
transported) bound covariance matrix is nonzero; the diagnostic print then
reads `boundCov.value()`, which raises on an absent value. -/
def boundState (kappa kappaSqrt : ℚ) (covSqrtOf : BoundSym → BoundSym)
    (freeToBoundCorrector :
      FreeVec → FreeSym → FreeVec → Option (BoundVec × BoundSym))
    (s : Surface) (st : TState) (parameters : FreeVec) (covTransport : Bool)
    (accumulatedPath : ℚ) : TState × BsOutcome :=
  let step :=
    if covTransport then
      transportCovarianceToBound kappa kappaSqrt covSqrtOf s
        { st with fullTransportJacobian := 1 } parameters
    else (st, none)
  match step with
  | (st1, some _) => (st1, BsOutcome.exnValueAccess)
  | (st1, none) =>
    let boundCov : Option BoundSym :=
      if st1.boundCovariance ≠ 0 then some st1.boundCovariance else none
    match s.transformFreeToBound parameters with
    | none => (st1, BsOutcome.err)
    | some bv =>
      match boundCov with
      | none => (st1, BsOutcome.exnBadOptionalAccess)
      | some bc =>
        let corrected :=
          match freeToBoundCorrector parameters st1.freeCovariance
              st1.freeToPathDerivatives with
          | some correctedValue => correctedValue
          | none => (0, 0)
        (st1, BsOutcome.ok ⟨bv, some bc⟩ st1.fullTransportJacobian
          accumulatedPath corrected.1 corrected.2)

/-- Curvilinear track parameters: 4D position, direction,
charge-over-momentum, optional covariance. -/
structure CurvilinearTrackParams where
  pos4 : Matrix (Fin 4) (Fin 1) ℚ
  direction : Matrix (Fin 3) (Fin 1) ℚ
  qOverP : ℚ
  covariance : Option BoundSym
  deriving DecidableEq

/-- Embedding of `curvilinearState` (CovarianceEngine.cpp lines 322–358).
The covariance is attached only when the (possibly transported) bound
covariance matrix is nonzero. -/
def curvilinearState (sqrtQ : ℚ → ℚ) (st : TState) (parameters : FreeVec)
    (covTransport : Bool) (accumulatedPath : ℚ) :
    TState × CurvilinearTrackParams × BoundM × ℚ :=
  let direction : Matrix (Fin 3) (Fin 1) ℚ :=
    Matrix.of fun i _ => parameters ⟨(i : ℕ) + 4, by omega⟩ 0
  let st1 :=
    if covTransport then
      transportCovarianceToCurvilinear sqrtQ
        { st with fullTransportJacobian := 1 } direction
    else st
  let boundCov : Option BoundSym :=
    if st1.boundCovariance ≠ 0 then some st1.boundCovariance else none
  let pos4 : Matrix (Fin 4) (Fin 1) ℚ :=
    Matrix.of fun i _ => parameters ⟨(i : ℕ), by omega⟩ 0
  (st1, ⟨pos4, direction, parameters 7 0, boundCov⟩,
    st1.fullTransportJacobian, accumulatedPath)

end CovEngine

namespace SurfaceReal

open Real

/-- Checked division: `none` stands for an IEEE non-finite outcome
(`1/0 = ±inf`). -/
noncomputable def cdiv (a b : ℝ) : Option ℝ :=
  if b = 0 then none else some (a / b)

/-- Checked product: any operand that is already non-finite or NaN
poisons the result (as IEEE multiplication by `inf`/`NaN` does: a finite
product of finite reals is the only finite case). -/
def cmul (a b : Option ℝ) : Option ℝ :=
  Option.map₂ (fun x y => x * y) a b

/-- Checked negation. -/
def cneg (a : Option ℝ) : Option ℝ :=
  Option.map (fun x => -x) a

/-- Modelled from the spec: the fixed curvilinear branch tolerance
`s_curvilinearProjTolerance` over `ℝ` (its defining header is not under
src/); the upstream value is used. -/
noncomputable def curvilinearProjToleranceR : ℝ := 0.999995

open Classical in
/-- Embedding of `freeToCurvilinearJacobian` (CovarianceEngine.cpp lines
33–75) over `ℝ` with checked arithmetic: an entry is `none` exactly when
its floating computation produces a non-finite or NaN value (the only
sources are `invSinTheta = 1/sinTheta` and `invC = 1/c` and their
propagation through products).  All intermediate quantities are computed
before the branch, exactly as in the source. -/
noncomputable def freeToCurvilinearJacobian (x y z : ℝ) :
    Fin 6 → Fin 8 → Option ℝ :=
  let cosTheta := z
  let sinTheta := Real.sqrt (x * x + y * y)
  let invSinTheta := cdiv 1 sinTheta
  let cosPhi := cmul (some x) invSinTheta
  let sinPhi := cmul (some y) invSinTheta
  let c := Real.sqrt (y * y + z * z)
  let invC := cdiv 1 c
  fun i j =>
    if i = 5 ∧ j = 3 then some 1
    else if i = 2 ∧ j = 4 then cneg (cmul sinPhi invSinTheta)
    else if i = 2 ∧ j = 5 then cmul cosPhi invSinTheta
    else if i = 3 ∧ j = 4 then cmul cosPhi (some cosTheta)
    else if i = 3 ∧ j = 5 then cmul sinPhi (some cosTheta)
    else if i = 3 ∧ j = 6 then some (-sinTheta)
    else if i = 4 ∧ j = 7 then some 1
    else if |cosTheta| < curvilinearProjToleranceR then
      if i = 0 ∧ j = 0 then cneg sinPhi
      else if i = 0 ∧ j = 1 then cosPhi
      else if i = 1 ∧ j = 0 then cneg (cmul cosPhi (some cosTheta))
      else if i = 1 ∧ j = 1 then cneg (cmul sinPhi (some cosTheta))
      else if i = 1 ∧ j = 2 then some sinTheta
      else some 0
    else
      if i = 0 ∧ j = 1 then cmul (some (-z)) invC
      else if i = 0 ∧ j = 2 then cmul (some y) invC
      else if i = 1 ∧ j = 0 then some c
      else if i = 1 ∧ j = 1 then cmul (some (-x * y)) invC
      else if i = 1 ∧ j = 2 then cmul (some (-x * z)) invC
      else some 0

/-- A surface with the generic default placement behaviour of
`Surface.ipp`: a centre and the three orthonormal columns of the placement
rotation (the reference frame), an on-surface tolerance and a bounds
membership predicate.  Orthonormality is a hypothesis of the theorems
below, not baked into the data. -/
structure PlanarSurface where
  center : Fin 3 → ℝ
  col0 : Fin 3 → ℝ
  col1 : Fin 3 → ℝ
  col2 : Fin 3 → ℝ
  tolerance : ℝ
  inBounds : (Fin 2 → ℝ) → Prop

/-- Euclidean inner product on `Fin 3 → ℝ`, written out. -/
def dot3 (u v : Fin 3 → ℝ) : ℝ :=
  u 0 * v 0 + u 1 * v 1 + u 2 * v 2

/-- Embedding of `Surface::referenceFrame` (Surface.ipp lines 33–37): the
default reference frame is the placement rotation block; the position and
direction arguments are ignored, as in the source. -/
def referenceFrame (S : PlanarSurface) (_position _direction : Fin 3 → ℝ) :
    Fin 3 → Fin 3 → ℝ :=
  fun i j => ![S.col0 i, S.col1 i, S.col2 i] j

/-- Embedding of `Surface::freeToPathDerivative` (Surface.ipp lines
123–136): the measurement-frame z axis is the third column of the
reference frame, the row vector is zero except for the three position
slots, which hold `-1/(n·d) · n`. -/
noncomputable def freeToPathDerivative (S : PlanarSurface)
    (position direction : Fin 3 → ℝ) : Fin 1 → Fin 8 → ℝ :=
  let rframe := referenceFrame S position direction
  let measZAxis : Fin 3 → ℝ := fun i => rframe i 2
  let norm := -1 / dot3 measZAxis direction
  fun _ j => if h : (j : ℕ) < 3 then norm * measZAxis ⟨(j : ℕ), h⟩ else 0

/-- Modelled from the spec: `detail::transformBoundToFreeParameters`
(header not under src/) for the generic planar frame — position is the
centre displaced along the first two frame columns by the local
coordinates, the direction is
`(cos φ sin θ, sin φ sin θ, cos θ)`, time and charge-over-momentum are
copied.  Bound ordering: loc0, loc1, φ, θ, q/p, t; free ordering:
position, time, direction, q/p. -/
noncomputable def boundToFree (S : PlanarSurface) (b : Fin 6 → ℝ) :
    Fin 8 → ℝ :=
  ![S.center 0 + b 0 * S.col0 0 + b 1 * S.col1 0,
    S.center 1 + b 0 * S.col0 1 + b 1 * S.col1 1,
    S.center 2 + b 0 * S.col0 2 + b 1 * S.col1 2,
    b 5,
    Real.cos (b 2) * Real.sin (b 3),
    Real.sin (b 2) * Real.sin (b 3),
    Real.cos (b 3),
    b 4]

open Classical in
/-- Modelled from the spec: `detail::transformFreeToBoundParameters`
(header not under src/) — fails with a geometry-projection error when the
position is off the surface beyond tolerance, otherwise projects the
displacement onto the first two frame columns and recovers the angles from
the direction components. -/
noncomputable def freeToBound (S : PlanarSurface) (f : Fin 8 → ℝ) :
    Option (Fin 6 → ℝ) :=
  let rel : Fin 3 → ℝ :=
    ![f 0 - S.center 0, f 1 - S.center 1, f 2 - S.center 2]
  if |dot3 S.col2 rel| ≤ S.tolerance then
    some ![dot3 S.col0 rel, dot3 S.col1 rel,
      Complex.arg ⟨f 4, f 5⟩, Real.arccos (f 6), f 7, f 3]
  else none

end SurfaceReal

namespace CovEngine

/-- A trivial concrete surface: every capability returns zero, the
projection and the free→bound conversion succeed. -/
def sZero : Surface where
  freeToPathDerivative := fun _ => 0
  freeToBoundJacobian := fun _ => 0
  boundToFreeJacobian := fun _ => 0
  globalToLocal := fun _ => some 0
  transformFreeToBound := fun _ => some 0
  transformBoundToFree := fun _ => 0

/-- A concrete surface whose free→bound conversion always fails while the
global-to-local projection succeeds. -/
def sConvFail : Surface where
  freeToPathDerivative := fun _ => 0
  freeToBoundJacobian := fun _ => 0
  boundToFreeJacobian := fun _ => 0
  globalToLocal := fun _ => some 0
  transformFreeToBound := fun _ => none
  transformBoundToFree := fun _ => 0

/-- A concrete surface whose global-to-local projection always fails while
the free→bound conversion succeeds. -/
def sGeomFail : Surface where
  freeToPathDerivative := fun _ => 0
  freeToBoundJacobian := fun _ => 0
  boundToFreeJacobian := fun _ => 0
  globalToLocal := fun _ => none
  transformFreeToBound := fun _ => some 0
  transformBoundToFree := fun _ => 0

/-- The all-zero step state. -/
def stZero : TState where
  boundCovariance := 0
  freeCovariance := 0
  fullTransportJacobian := 0
  freeTransportJacobian := 0
  freeToPathDerivatives := 0
  boundToFreeJacobian := 0

/-- A step state with identity bound covariance and a non-identity
(zero) free transport Jacobian. -/
def stCovOne : TState where
  boundCovariance := 1
  freeCovariance := 0
  fullTransportJacobian := 1
  freeTransportJacobian := 0
  freeToPathDerivatives := 0
  boundToFreeJacobian := 0

end CovEngine

namespace SurfaceReal

/-- The concrete xy-plane at the origin with the standard frame, tolerance
one and trivial bounds. -/
noncomputable def planeXY : PlanarSurface where
  center := ![0, 0, 0]
  col0 := ![1, 0, 0]
  col1 := ![0, 1, 0]
  col2 := ![0, 0, 1]
  tolerance := 1
  inBounds := fun _ => True

/-- A concrete bound vector on `planeXY`: local origin, azimuth 0, polar
angle π/2, unit charge-over-momentum, time 0. -/
noncomputable def b7 : Fin 6 → ℝ := ![0, 0, 0, Real.pi / 2, 1, 0]

end SurfaceReal

namespace CovEngine

/-- C1: on the path where the free→bound conversion at the target surface
succeeds, `transportCovarianceToBound` follows the transport-to-bound
algorithm: the chained local Jacobian is
`J = freeToBound · (I + freeDerivatives ⊗ pathDerivative) ·
freeTransportJacobian · boundToFreeJacobian`; the Corrector (seeded on the
bound side, producing a refined free mean/covariance) supplies the free
covariance when available; that free covariance is conjugated by the
path-corrected transport Jacobian `M`; the bound covariance is
`F · Σ_free' · Fᵗ`; and afterwards the step state is reset:
`freeTransportJacobian` to identity, `freeToPathDerivatives` to zero, and
`boundToFreeJacobian` to the one evaluated at the new surface. -/
theorem transportCovarianceToBound_pipeline (kappa kappaSqrt : ℚ)
    (covSqrtOf : BoundSym → BoundSym) (s : Surface) (st : TState)
    (fp : FreeVec) (bv : BoundVec)
    (h : s.transformFreeToBound fp = some bv) :
    (transportCovarianceToBound kappa kappaSqrt covSqrtOf s st fp).2 =
        none ∧
      (transportCovarianceToBound kappa kappaSqrt covSqrtOf s st
          fp).1.fullTransportJacobian =
        s.freeToBoundJacobian fp *
          ((1 + st.freeToPathDerivatives * s.freeToPathDerivative fp) *
            st.freeTransportJacobian * st.boundToFreeJacobian) ∧
      (transportCovarianceToBound kappa kappaSqrt covSqrtOf s st
          fp).1.freeCovariance =
        ((1 + st.freeToPathDerivatives * s.freeToPathDerivative fp) *
            st.freeTransportJacobian) *
          (((correctedBoundToFree kappa kappaSqrt covSqrtOf s bv
              st.boundCovariance).map Prod.snd).getD st.freeCovariance) *
          Matrix.transpose
            ((1 + st.freeToPathDerivatives * s.freeToPathDerivative fp) *
              st.freeTransportJacobian) ∧
      (transportCovarianceToBound kappa kappaSqrt covSqrtOf s st
          fp).1.boundCovariance =
        s.freeToBoundJacobian fp *
          (((1 + st.freeToPathDerivatives * s.freeToPathDerivative fp) *
              st.freeTransportJacobian) *
            (((correctedBoundToFree kappa kappaSqrt covSqrtOf s bv
                st.boundCovariance).map Prod.snd).getD st.freeCovariance) *
            Matrix.transpose
              ((1 + st.freeToPathDerivatives * s.freeToPathDerivative fp) *
                st.freeTransportJacobian)) *
          Matrix.transpose (s.freeToBoundJacobian fp) ∧
      (transportCovarianceToBound kappa kappaSqrt covSqrtOf s st
          fp).1.freeTransportJacobian = 1 ∧
      (transportCovarianceToBound kappa kappaSqrt covSqrtOf s st
          fp).1.freeToPathDerivatives = 0 ∧
      (transportCovarianceToBound kappa kappaSqrt covSqrtOf s st
          fp).1.boundToFreeJacobian = s.boundToFreeJacobian bv := by
  cases hc : correctedBoundToFree kappa kappaSqrt covSqrtOf s bv
      st.boundCovariance with
  | none =>
    refine ⟨?_, ?_, ?_, ?_, ?_, ?_, ?_⟩ <;>
      simp [transportCovarianceToBound, boundToBoundJacobian,
        reinitializeJacobians, h, hc]
  | some cv =>
    refine ⟨?_, ?_, ?_, ?_, ?_, ?_, ?_⟩ <;>
      simp [transportCovarianceToBound, boundToBoundJacobian,
        reinitializeJacobians, h, hc]

/-- C1 witness: on the trivial surface with the zero state the conversion
succeeds and the transport completes without an exception. -/
theorem transportCovarianceToBound_pipeline_witness :
    sZero.transformFreeToBound 0 = some 0 ∧
      (transportCovarianceToBound 4 2 (fun _ => 0) sZero stZero 0).2 =
        none :=
  ⟨rfl, (transportCovarianceToBound_pipeline 4 2 (fun _ => 0) sZero stZero
    0 0 rfl).1⟩

/-- C3: the sigma-point corrector `CorrectedBoundToFreeTransformer` never
produces a result from a partial sample set — in this code the bound→free
transform of a sample is total, so every one of the `2·6+1` samples is
transformed, and the returned mean and covariance aggregate exactly those
13 weighted samples (the empty-batch fallback that would report the
correction unavailable is unreachable). -/
theorem correctedBoundToFree_aggregates_full_sample_set
    (kappa kappaSqrt : ℚ) (covSqrtOf : BoundSym → BoundSym) (s : Surface)
    (bp : BoundVec) (bc : BoundSym) :
    ∃ m v, correctedBoundToFree kappa kappaSqrt covSqrtOf s bp bc =
        some (m, v) ∧
      m = ((kappa - 6) / kappa) • s.transformBoundToFree bp +
        ∑ i : Fin 6,
          ((0.5 / kappa) • s.transformBoundToFree
              (bp + kappaSqrt • covSqrtCol (covSqrtOf bc) i) +
            (0.5 / kappa) • s.transformBoundToFree
              (bp - kappaSqrt • covSqrtCol (covSqrtOf bc) i)) ∧
      v = ((kappa - 6) / kappa) •
          ((s.transformBoundToFree bp - m) *
            Matrix.transpose (s.transformBoundToFree bp - m)) +
        ∑ i : Fin 6,
          ((0.5 / kappa) •
              ((s.transformBoundToFree
                  (bp + kappaSqrt • covSqrtCol (covSqrtOf bc) i) - m) *
                Matrix.transpose (s.transformBoundToFree
                  (bp + kappaSqrt • covSqrtCol (covSqrtOf bc) i) - m)) +
            (0.5 / kappa) •
              ((s.transformBoundToFree
                  (bp - kappaSqrt • covSqrtCol (covSqrtOf bc) i) - m) *
                Matrix.transpose (s.transformBoundToFree
                  (bp - kappaSqrt • covSqrtCol (covSqrtOf bc) i) - m))) := by
  have hfr : List.finRange 6 = [0, 1, 2, 3, 4, 5] := by decide
  simp only [correctedBoundToFree, sampledBoundParams, hfr, List.flatMap,
    List.map_cons, List.map_nil, List.flatten, List.cons_append,
    List.append_nil, List.nil_append, List.zip_cons_cons, List.zip_nil_right,
    List.sum_cons, List.sum_nil, List.isEmpty_cons, Bool.false_eq_true,
    if_false]
  refine ⟨_, _, rfl, ?_, ?_⟩
  · simp only [Fin.sum_univ_six]
    abel
  · simp only [Fin.sum_univ_six]
    abel

/-- C6: for a tuning scalar `κ > 0` and bound dimension 6 there are
exactly `2·6+1` sigma points — the mean with weight `(κ−6)/κ` first, and
for each axis the two shifted points with weight `1/(2κ)` each — the 13
weights sum to exactly 1, a negative central weight for `κ < 6` is
accepted (the corrector still returns a result), never an error. -/
theorem sigmaPoints_weights (kappa kappaSqrt : ℚ) (covSqrt : BoundSym)
    (boundParams : BoundVec) (hk : 0 < kappa)
    (hks : kappaSqrt * kappaSqrt = kappa) :
    (sampledBoundParams kappa kappaSqrt covSqrt boundParams).length =
        2 * 6 + 1 ∧
      ((sampledBoundParams kappa kappaSqrt covSqrt boundParams).map
        Prod.snd).sum = 1 ∧
      (sampledBoundParams kappa kappaSqrt covSqrt boundParams).head? =
        some (boundParams, (kappa - 6) / kappa) ∧
      (∀ i : Fin 6,
        (boundParams + kappaSqrt • covSqrtCol covSqrt i, 0.5 / kappa) ∈
            sampledBoundParams kappa kappaSqrt covSqrt boundParams ∧
          (boundParams - kappaSqrt • covSqrtCol covSqrt i, 0.5 / kappa) ∈
            sampledBoundParams kappa kappaSqrt covSqrt boundParams) ∧
      (kappa < 6 → (kappa - 6) / kappa < 0) ∧
      ∀ (covSqrtOf : BoundSym → BoundSym) (s : Surface) (bc : BoundSym),
        (correctedBoundToFree kappa kappaSqrt covSqrtOf s boundParams
          bc).isSome := by
  have hfr : List.finRange 6 = [0, 1, 2, 3, 4, 5] := by decide
  have hne : kappa ≠ 0 := ne_of_gt hk
  refine ⟨?_, ?_, ?_, ?_, ?_, ?_⟩
  · simp [sampledBoundParams, hfr]
  · simp only [sampledBoundParams, hfr, List.flatMap, List.map,
      List.sum_cons, List.sum_nil, List.flatten, List.append_nil,
      List.cons_append]
    field_simp
    ring
  · simp [sampledBoundParams]
  · intro i
    fin_cases i <;>
      simp [sampledBoundParams, hfr, List.mem_cons, List.mem_flatMap]
  · intro hlt
    apply div_neg_of_neg_of_pos <;> linarith
  · intro covSqrtOf s bc
    simp [correctedBoundToFree, sampledBoundParams]

/-- C6 witness: at the default `κ = 4` (with `sqrt κ = 2` exactly) and a
zero covariance square root, the 13 weights sum to 1. -/
theorem sigmaPoints_weights_witness :
    (0 : ℚ) < 4 ∧ (2 : ℚ) * 2 = 4 ∧
      ((sampledBoundParams 4 2 0 0).map Prod.snd).sum = 1 :=
  ⟨by norm_num, by norm_num,
    (sigmaPoints_weights 4 2 0 0 (by norm_num) (by norm_num)).2.1⟩

end CovEngine

namespace SurfaceReal

/-- Helper: an if-expression of two present options is present. -/
theorem isSome_ite (c : Prop) (inst : Decidable c) (a b : Option ℝ)
    (ha : a.isSome = true) (hb : b.isSome = true) :
    (if c then a else b).isSome = true := by
  split
  · exact ha
  · exact hb

/-- C2 counterexample: at the exact pole `direction = (0,0,1)` — a unit
direction whose `|cosθ| = 1` differs from the tolerance — the angular
entry `(2,4)` of `freeToCurvilinearJacobian` is not finite: the source
computes `invSinTheta = 1/0` before the branch and multiplies it into the
φ-row, so the claimed pole-finiteness fails. -/
theorem freeToCurvilinearJacobian_pole_not_finite :
    (0 : ℝ) * 0 + 0 * 0 + 1 * 1 = 1 ∧
      |(1 : ℝ)| ≠ curvilinearProjToleranceR ∧
      freeToCurvilinearJacobian 0 0 1 2 4 = none := by
  refine ⟨by norm_num, by norm_num [curvilinearProjToleranceR], ?_⟩
  simp [freeToCurvilinearJacobian, cdiv, cmul, cneg, Real.sqrt_zero]

/-- C2 (amended): for every unit direction whose `|cosθ|` differs from
the branch tolerance and whose `sinθ` is nonzero (the direction is not
exactly at a pole), every entry of `freeToCurvilinearJacobian` is finite
and not NaN (`isSome` in the checked-arithmetic embedding); in the grazing
branch `c = sqrt(y²+z²)` is nonzero because `|cosθ|` is at least the
tolerance there. -/
theorem freeToCurvilinearJacobian_finite_away_from_pole (x y z : ℝ)
    (hunit : x * x + y * y + z * z = 1)
    (htau : |z| ≠ curvilinearProjToleranceR)
    (hsin : Real.sqrt (x * x + y * y) ≠ 0) :
    ∀ i j, (freeToCurvilinearJacobian x y z i j).isSome := by
  intro i j
  have hinv : cdiv 1 (Real.sqrt (x * x + y * y)) =
      some (1 / Real.sqrt (x * x + y * y)) := by
    simp [cdiv, hsin]
  by_cases hb : |z| < curvilinearProjToleranceR
  · simp only [freeToCurvilinearJacobian, hinv, cmul, cneg, hb, if_true]
    repeat' apply isSome_ite
    all_goals rfl
  · have hz : z ≠ 0 := by
      intro hz0
      apply hb
      rw [hz0]
      norm_num [curvilinearProjToleranceR]
    have hc : Real.sqrt (y * y + z * z) ≠ 0 := by
      have hzz : 0 < z * z := mul_self_pos.mpr hz
      have hyy : 0 ≤ y * y := mul_self_nonneg y
      have hpos : 0 < y * y + z * z := by linarith
      exact ne_of_gt (Real.sqrt_pos.mpr hpos)
    have hinvC : cdiv 1 (Real.sqrt (y * y + z * z)) =
        some (1 / Real.sqrt (y * y + z * z)) := by
      simp [cdiv, hc]
    simp only [freeToCurvilinearJacobian, hinv, hinvC, cmul, cneg, hb,
      if_false]
    repeat' apply isSome_ite
    all_goals rfl

/-- C2 witness: the equatorial unit direction `(1,0,0)` satisfies the
hypotheses and every Jacobian entry is present. -/
theorem freeToCurvilinearJacobian_finite_away_from_pole_witness :
    (1 : ℝ) * 1 + 0 * 0 + 0 * 0 = 1 ∧
      |(0 : ℝ)| ≠ curvilinearProjToleranceR ∧
      Real.sqrt ((1 : ℝ) * 1 + 0 * 0) ≠ 0 ∧
      ∀ i j, (freeToCurvilinearJacobian 1 0 0 i j).isSome := by
  have hs : Real.sqrt ((1 : ℝ) * 1 + 0 * 0) ≠ 0 := by
    rw [show ((1 : ℝ) * 1 + 0 * 0) = 1 by norm_num, Real.sqrt_one]
    norm_num
  exact ⟨by norm_num, by norm_num [curvilinearProjToleranceR], hs,
    freeToCurvilinearJacobian_finite_away_from_pole 1 0 0 (by norm_num)
      (by norm_num [curvilinearProjToleranceR]) hs⟩

/-- C8: for any position and any direction `d` with `n·d ≠ 0`, where `n`
is the third column of the surface's reference frame (the local-frame
normal axis), `Surface::freeToPathDerivative` returns the 1×8 row whose
three position slots hold `-1/(n·d) · n` and whose other five entries are
zero. -/
theorem freeToPathDerivative_normal_formula (S : PlanarSurface)
    (position direction : Fin 3 → ℝ)
    (hn : dot3 S.col2 direction ≠ 0) :
    (fun i => referenceFrame S position direction i 2) = S.col2 ∧
      (∀ j : Fin 3,
        freeToPathDerivative S position direction 0 ⟨(j : ℕ), by omega⟩ =
          -1 / dot3 S.col2 direction * S.col2 j) ∧
      ∀ j : Fin 8, 3 ≤ (j : ℕ) →
        freeToPathDerivative S position direction 0 j = 0 := by
  have hframe : (fun i => referenceFrame S position direction i 2) =
      S.col2 := by
    funext i
    simp [referenceFrame]
  refine ⟨hframe, ?_, ?_⟩
  · intro j
    simp [freeToPathDerivative, referenceFrame, j.isLt]
  · intro j hj
    simp [freeToPathDerivative, Nat.not_lt.mpr hj]

/-- C8 witness: on the xy-plane with direction `(0,0,1)` the normal
product is 1 and the first position slot evaluates to the formula. -/
theorem freeToPathDerivative_normal_formula_witness :
    dot3 planeXY.col2 ![(0 : ℝ), 0, 1] ≠ 0 ∧
      freeToPathDerivative planeXY ![0, 0, 0] ![(0 : ℝ), 0, 1] 0 0 =
        -1 / dot3 planeXY.col2 ![(0 : ℝ), 0, 1] * planeXY.col2 0 := by
  have hn : dot3 planeXY.col2 ![(0 : ℝ), 0, 1] ≠ 0 := by
    show (0 : ℝ) * 0 + 0 * 0 + 1 * 1 ≠ 0
    norm_num
  exact ⟨hn, (freeToPathDerivative_normal_formula planeXY ![0, 0, 0]
    ![(0 : ℝ), 0, 1] hn).2.1 0⟩

/-- C7: for any surface with an orthonormal frame, nonnegative tolerance,
and any bound vector within bounds whose azimuth lies in `(-π, π]` and
whose polar angle lies in `(0, π)`, converting to free parameters and back
returns exactly the original bound vector (exact over `ℝ`, hence within
any floating tolerance). -/
theorem freeToBound_boundToFree_roundTrip (S : PlanarSurface)
    (b : Fin 6 → ℝ)
    (h00 : dot3 S.col0 S.col0 = 1) (h11 : dot3 S.col1 S.col1 = 1)
    (h01 : dot3 S.col0 S.col1 = 0) (h20 : dot3 S.col2 S.col0 = 0)
    (h21 : dot3 S.col2 S.col1 = 0) (htol : 0 ≤ S.tolerance)
    (hphi : b 2 ∈ Set.Ioc (-Real.pi) Real.pi)
    (hth0 : 0 < b 3) (hth1 : b 3 < Real.pi)
    (hbounds : S.inBounds ![b 0, b 1]) :
    freeToBound S (boundToFree S b) = some b := by
  have hrel : (![boundToFree S b 0 - S.center 0,
      boundToFree S b 1 - S.center 1,
      boundToFree S b 2 - S.center 2] : Fin 3 → ℝ) =
      ![b 0 * S.col0 0 + b 1 * S.col1 0,
        b 0 * S.col0 1 + b 1 * S.col1 1,
        b 0 * S.col0 2 + b 1 * S.col1 2] := by
    funext i
    fin_cases i
    · show S.center 0 + b 0 * S.col0 0 + b 1 * S.col1 0 - S.center 0 =
        b 0 * S.col0 0 + b 1 * S.col1 0
      ring
    · show S.center 1 + b 0 * S.col0 1 + b 1 * S.col1 1 - S.center 1 =
        b 0 * S.col0 1 + b 1 * S.col1 1
      ring
    · show S.center 2 + b 0 * S.col0 2 + b 1 * S.col1 2 - S.center 2 =
        b 0 * S.col0 2 + b 1 * S.col1 2
      ring
  simp only [dot3] at h00 h11 h01 h20 h21
  simp only [freeToBound, hrel]
  have hperp : dot3 S.col2
      ![b 0 * S.col0 0 + b 1 * S.col1 0,
        b 0 * S.col0 1 + b 1 * S.col1 1,
        b 0 * S.col0 2 + b 1 * S.col1 2] = 0 := by
    show S.col2 0 * (b 0 * S.col0 0 + b 1 * S.col1 0) +
      S.col2 1 * (b 0 * S.col0 1 + b 1 * S.col1 1) +
      S.col2 2 * (b 0 * S.col0 2 + b 1 * S.col1 2) = 0
    linear_combination b 0 * h20 + b 1 * h21
  rw [if_pos (by rw [hperp]; simpa using htol)]
  congr 1
  funext i
  fin_cases i
  · show S.col0 0 * (b 0 * S.col0 0 + b 1 * S.col1 0) +
      S.col0 1 * (b 0 * S.col0 1 + b 1 * S.col1 1) +
      S.col0 2 * (b 0 * S.col0 2 + b 1 * S.col1 2) = b 0
    linear_combination b 0 * h00 + b 1 * h01
  · show S.col1 0 * (b 0 * S.col0 0 + b 1 * S.col1 0) +
      S.col1 1 * (b 0 * S.col0 1 + b 1 * S.col1 1) +
      S.col1 2 * (b 0 * S.col0 2 + b 1 * S.col1 2) = b 1
    linear_combination b 0 * h01 + b 1 * h11
  · show Complex.arg ⟨Real.cos (b 2) * Real.sin (b 3),
      Real.sin (b 2) * Real.sin (b 3)⟩ = b 2
    have hth : 0 < Real.sin (b 3) := Real.sin_pos_of_pos_of_lt_pi hth0 hth1
    have hmk : (⟨Real.cos (b 2) * Real.sin (b 3),
        Real.sin (b 2) * Real.sin (b 3)⟩ : ℂ) =
        (Real.sin (b 3) : ℝ) *
          ((Real.cos (b 2) : ℝ) + (Real.sin (b 2) : ℝ) * Complex.I) := by
      apply Complex.ext <;>
        simp only [Complex.mul_re, Complex.mul_im, Complex.add_re,
          Complex.add_im, Complex.ofReal_re, Complex.ofReal_im, Complex.I_re,
          Complex.I_im] <;>
        ring
    rw [hmk, Complex.arg_real_mul _ hth, Complex.ofReal_cos,
      Complex.ofReal_sin, Complex.arg_cos_add_sin_mul_I hphi]
  · show Real.arccos (Real.cos (b 3)) = b 3
    exact Real.arccos_cos hth0.le hth1.le
  · show b 4 = b 4
    rfl
  · show b 5 = b 5
    rfl

/-- C7 witness: the round trip is exact for the concrete bound vector
`b7` on the xy-plane surface. -/
theorem freeToBound_boundToFree_roundTrip_witness :
    (0 : ℝ) < b7 3 ∧ b7 2 ∈ Set.Ioc (-Real.pi) Real.pi ∧
      freeToBound planeXY (boundToFree planeXY b7) = some b7 := by
  have hth0 : (0 : ℝ) < b7 3 := by
    show (0 : ℝ) < Real.pi / 2
    positivity
  have hphi : b7 2 ∈ Set.Ioc (-Real.pi) Real.pi := by
    show (0 : ℝ) ∈ Set.Ioc (-Real.pi) Real.pi
    constructor
    · simpa using Real.pi_pos
    · exact Real.pi_pos.le
  refine ⟨hth0, hphi, ?_⟩
  apply freeToBound_boundToFree_roundTrip planeXY b7
  · show (1 : ℝ) * 1 + 0 * 0 + 0 * 0 = 1
    norm_num
  · show (0 : ℝ) * 0 + 1 * 1 + 0 * 0 = 1
    norm_num
  · show (1 : ℝ) * 0 + 0 * 1 + 0 * 0 = 0
    norm_num
  · show (0 : ℝ) * 1 + 0 * 0 + 1 * 0 = 0
    norm_num
  · show (0 : ℝ) * 0 + 0 * 1 + 1 * 0 = 0
    norm_num
  · show (0 : ℝ) ≤ 1
    norm_num
  · exact hphi
  · exact hth0
  · show Real.pi / 2 < Real.pi
    linarith [Real.pi_pos]
  · show True
    trivial

end SurfaceReal

namespace CovEngine

/-- C4 counterexample: calling `boundState` with covariance transport not
requested but a nonzero incoming bound covariance matrix returns a
present covariance (`some 1`), because presence is decided by the
zero-matrix sentinel test, not by the transport request — the claimed
always-absent covariance is refuted. -/
theorem boundState_covariance_present_without_transport :
    (boundState 4 2 (fun _ => 0) (fun _ _ _ => none) sZero stCovOne 0 false
        0).2 =
      BsOutcome.ok ⟨0, some 1⟩ 1 0 0 0 ∧ some (1 : BoundSym) ≠ none := by
  constructor
  · simp [boundState, stCovOne, sZero]
  · simp

/-- C4 (amended): the presence of the returned covariance is governed by
the zero-matrix sentinel, not by the transport request: `curvilinearState`
attaches a covariance exactly when the (possibly transported) bound
covariance matrix is nonzero, and whenever `boundState` returns normally
its covariance is present and equal to the nonzero post-transport matrix
(an absent covariance never reaches a normal return), so an explicit
all-zero covariance is indistinguishable from an absent one. -/
theorem covariance_presence_iff_nonzero_matrix (sqrtQ : ℚ → ℚ)
    (st : TState) (parameters : FreeVec) (covTransport : Bool)
    (accumulatedPath : ℚ) (kappa kappaSqrt : ℚ)
    (covSqrtOf : BoundSym → BoundSym)
    (freeToBoundCorrector :
      FreeVec → FreeSym → FreeVec → Option (BoundVec × BoundSym))
    (s : Surface) (st' : TState) (parameters' : FreeVec)
    (covTransport' : Bool) (accumulatedPath' : ℚ) :
    ((curvilinearState sqrtQ st parameters covTransport
        accumulatedPath).2.1.covariance =
      if (curvilinearState sqrtQ st parameters covTransport
            accumulatedPath).1.boundCovariance ≠ 0 then
        some ((curvilinearState sqrtQ st parameters covTransport
          accumulatedPath).1.boundCovariance)
      else none) ∧
    ∀ (p : BoundTrackParams) (j : BoundM) (ap : ℚ) (cb : BoundVec)
        (cv : BoundSym),
      (boundState kappa kappaSqrt covSqrtOf freeToBoundCorrector s st'
          parameters' covTransport' accumulatedPath').2 =
        BsOutcome.ok p j ap cb cv →
      p.covariance = some (boundState kappa kappaSqrt covSqrtOf
          freeToBoundCorrector s st' parameters' covTransport'
          accumulatedPath').1.boundCovariance ∧
        (boundState kappa kappaSqrt covSqrtOf freeToBoundCorrector s st'
          parameters' covTransport' accumulatedPath').1.boundCovariance ≠
          0 := by
  constructor
  · simp only [curvilinearState]
  · intro p j ap cb cv h
    simp only [boundState] at h ⊢
    split at h
    · simp at h
    · rename_i st1 heq
      split at h
      · simp at h
      · rename_i bv hbv
        split at h
        · simp at h
        · rename_i bc hbc
          simp only [BsOutcome.ok.injEq] at h
          obtain ⟨hp, -, -, -, -⟩ := h
          subst hp
          split at hbc
          · rename_i hne
            simp only [Option.some.injEq] at hbc
            subst hbc
            exact ⟨rfl, hne⟩
          · simp at hbc

/-- C4 witness: the `boundState` clause of the amended statement applied
at the concrete call with transport disabled and identity incoming bound
covariance. -/
theorem covariance_presence_iff_nonzero_matrix_witness :
    (boundState 4 2 (fun _ => 0) (fun _ _ _ => none) sZero stCovOne 0 false
        0).2 = BsOutcome.ok ⟨0, some 1⟩ 1 0 0 0 ∧
      (⟨0, some 1⟩ : BoundTrackParams).covariance =
        some (boundState 4 2 (fun _ => 0) (fun _ _ _ => none) sZero stCovOne
          0 false 0).1.boundCovariance ∧
      (boundState 4 2 (fun _ => 0) (fun _ _ _ => none) sZero stCovOne 0
        false 0).1.boundCovariance ≠ 0 := by
  have h : (boundState 4 2 (fun _ => 0) (fun _ _ _ => none) sZero stCovOne 0
      false 0).2 = BsOutcome.ok ⟨0, some 1⟩ 1 0 0 0 := by
    simp [boundState, stCovOne, sZero]
  exact ⟨h, (covariance_presence_iff_nonzero_matrix (fun q => q) stZero 0
    false 0 4 2 (fun _ => 0) (fun _ _ _ => none) sZero stCovOne 0 false
    0).2 ⟨0, some 1⟩ 1 0 0 0 h⟩

/-- C5: at a concrete state whose global-to-local projection fails while
the free→bound conversion succeeds, the surface version of
`reinitializeJacobians` logs the FATAL geometry inconsistency but
continues, reports success to its caller, and resets the bound→free
Jacobian from the conversion — it does not abort the trajectory, contrary
to the claim (the spec itself flags this reference behaviour as a
defect). -/
theorem reinitializeJacobians_continues_after_projection_failure :
    (reinitializeJacobians sGeomFail 0 0).fatalLogged = true ∧
      (reinitializeJacobians sGeomFail 0 0).ok = true ∧
      (reinitializeJacobians sGeomFail 0 0).boundToFreeJacobian =
        sGeomFail.boundToFreeJacobian 0 :=
  ⟨rfl, rfl, rfl⟩

/-- C9: with covariance transport disabled and a zero incoming bound
covariance matrix, `boundState` leaves the optional covariance absent,
yet unconditionally reads `boundCov.value()` at the diagnostic print once
the free→bound conversion succeeds — reaching the bad-optional-access
outcome. -/
theorem boundState_badOptionalAccess_without_covariance
    (kappa kappaSqrt : ℚ) (covSqrtOf : BoundSym → BoundSym)
    (freeToBoundCorrector :
      FreeVec → FreeSym → FreeVec → Option (BoundVec × BoundSym))
    (s : Surface) (st : TState) (parameters : FreeVec)
    (accumulatedPath : ℚ) (bv : BoundVec)
    (hcov : st.boundCovariance = 0)
    (hbv : s.transformFreeToBound parameters = some bv) :
    (boundState kappa kappaSqrt covSqrtOf freeToBoundCorrector s st
        parameters false accumulatedPath).2 =
      BsOutcome.exnBadOptionalAccess := by
  simp [boundState, hcov, hbv]

/-- C9 witness: the zero state on the trivial surface reaches the
bad-optional-access outcome. -/
theorem boundState_badOptionalAccess_without_covariance_witness :
    stZero.boundCovariance = 0 ∧
      sZero.transformFreeToBound 0 = some 0 ∧
      (boundState 4 2 (fun _ => 0) (fun _ _ _ => none) sZero stZero 0 false
        0).2 = BsOutcome.exnBadOptionalAccess :=
  ⟨rfl, rfl, boundState_badOptionalAccess_without_covariance 4 2
    (fun _ => 0) (fun _ _ _ => none) sZero stZero 0 0 0 rfl rfl⟩

/-- C10 counterexample: at a concrete call whose free→bound conversion at
the target surface fails, `transportCovarianceToBound` raises the
`Result::value()` access error at the corrector invocation (so the
failure is surfaced as an exception, not silently ignored) and performs
no reset at all: the free transport Jacobian keeps its incoming value
(zero) rather than being set to identity — refuting the claimed partial
reset. -/
theorem transportCovarianceToBound_failure_counterexample :
    (transportCovarianceToBound 4 2 (fun _ => 0) sConvFail stCovOne 0).2 =
        some TcbExn.valueAccess ∧
      (transportCovarianceToBound 4 2 (fun _ => 0) sConvFail stCovOne
          0).1.freeTransportJacobian = stCovOne.freeTransportJacobian ∧
      (transportCovarianceToBound 4 2 (fun _ => 0) sConvFail stCovOne
          0).1.freeTransportJacobian ≠ 1 ∧
      (transportCovarianceToBound 4 2 (fun _ => 0) sConvFail stCovOne
          0).1.boundToFreeJacobian = stCovOne.boundToFreeJacobian := by
  refine ⟨rfl, rfl, ?_, rfl⟩
  show stCovOne.freeTransportJacobian ≠ 1
  show (0 : FreeM) ≠ 1
  exact zero_ne_one

/-- C10 (amended): `transportCovarianceToBound` does discard the `Result`
of `reinitializeJacobians`, but a failing conversion at the new surface
never produces the claimed partial reset: the identical conversion fails
already at the start of the function and the `Result::value()` access at
the corrector invocation aborts it with the step state fully unchanged
(only the full transport Jacobian updated); `reinitializeJacobians`
itself, were it reached with a failing conversion, would report failure
with the transport Jacobian reset to identity, the path derivatives to
zero, and the bound→free Jacobian stale. -/
theorem transportCovarianceToBound_failure_behavior (kappa kappaSqrt : ℚ)
    (covSqrtOf : BoundSym → BoundSym) (s : Surface) (st : TState)
    (fp : FreeVec) (h : s.transformFreeToBound fp = none) :
    transportCovarianceToBound kappa kappaSqrt covSqrtOf s st fp =
        ({ st with fullTransportJacobian :=
            (boundToBoundJacobian s fp st.boundToFreeJacobian
              st.freeTransportJacobian st.freeToPathDerivatives).1 },
          some TcbExn.valueAccess) ∧
      (reinitializeJacobians s st.boundToFreeJacobian fp).ok = false ∧
      (reinitializeJacobians s st.boundToFreeJacobian
          fp).freeTransportJacobian = 1 ∧
      (reinitializeJacobians s st.boundToFreeJacobian
          fp).freeToPathDerivatives = 0 ∧
      (reinitializeJacobians s st.boundToFreeJacobian
          fp).boundToFreeJacobian = st.boundToFreeJacobian := by
  refine ⟨?_, ?_, ?_, ?_, ?_⟩ <;>
    simp [transportCovarianceToBound, reinitializeJacobians, h]

/-- C10 witness: on the conversion-failing surface with the zero state,
the reinitialization reports failure and keeps the stale Jacobian. -/
theorem transportCovarianceToBound_failure_behavior_witness :
    sConvFail.transformFreeToBound 0 = none ∧
      (reinitializeJacobians sConvFail stZero.boundToFreeJacobian 0).ok =
        false :=
  ⟨rfl, (transportCovarianceToBound_failure_behavior 4 2 (fun _ => 0)
    sConvFail stZero 0 rfl).2.1⟩

end CovEngine
